import Mathlib

/-!
Verification of the fireshot annotation editor core.

Shallow embedding of `crates/gui/src` (app.rs, effects.rs, image_ops.rs,
geometry.rs, lib.rs glyphs, clipboard control flow).  Rust `f32` coordinates
are modelled as exact rationals, `u8`/`u32`/`u64` integers as `Nat` with
explicit wrap where the source can wrap, `i32` as `Int`.  Images are a width,
a height and a total pixel function; `put_pixel` is a pointwise update.
External effects (child processes, the filesystem, the egui viewport) are
modelled by boolean outcomes passed in as parameters.
-/

namespace Fireshot

/-- RGBA8 pixel (`egui::Color32` / `image::Rgba<u8>`); channels are `u8`
values, carried as `Nat`. -/
structure Rgba where
  r : Nat
  g : Nat
  b : Nat
  a : Nat
deriving DecidableEq

/-- An RGBA image (`image::RgbaImage`): fixed dimensions and a total pixel
function.  Out-of-bounds behaviour of the source (`get_pixel` panics) is
settled by the in-bounds access theorems below. -/
@[ext]
structure Img where
  width : Nat
  height : Nat
  pix : Nat → Nat → Rgba

/-- `RgbaImage::new`: all pixels zeroed. -/
def Img.new (w h : Nat) : Img :=
  { width := w, height := h, pix := fun _ _ => ⟨0, 0, 0, 0⟩ }

/-- `RgbaImage::put_pixel`. -/
def Img.put_pixel (img : Img) (x y : Nat) (c : Rgba) : Img :=
  { img with pix := fun a b => if a = x ∧ b = y then c else img.pix a b }

/-- A point (`egui::Pos2`), with `f32` coordinates modelled as `ℚ`. -/
structure Pos where
  x : ℚ
  y : ℚ
deriving DecidableEq

/-- A vector (`egui::Vec2`). -/
structure Vec2 where
  x : ℚ
  y : ℚ
deriving DecidableEq

instance : HSub Pos Pos Vec2 := ⟨fun a b => ⟨a.x - b.x, a.y - b.y⟩⟩

instance : HSub Pos Vec2 Pos := ⟨fun a v => ⟨a.x - v.x, a.y - v.y⟩⟩

/-- A rectangle (`egui::Rect`), two corner points. -/
structure Rect where
  min : Pos
  max : Pos
deriving DecidableEq

/-- `egui::Rect::from_two_pos`: componentwise min/max of the two points. -/
def Rect.from_two_pos (a b : Pos) : Rect :=
  ⟨⟨Min.min a.x b.x, Min.min a.y b.y⟩, ⟨Max.max a.x b.x, Max.max a.y b.y⟩⟩

/-- `egui::Rect::from_min_size`. -/
def Rect.from_min_size (p : Pos) (s : Vec2) : Rect :=
  ⟨p, ⟨p.x + s.x, p.y + s.y⟩⟩

def Rect.width (r : Rect) : ℚ := r.max.x - r.min.x

def Rect.height (r : Rect) : ℚ := r.max.y - r.min.y

/-- `egui::Rect::size`. -/
def Rect.size (r : Rect) : Vec2 := ⟨r.width, r.height⟩

/-- `egui::Rect::contains` (inclusive on all edges). -/
def Rect.contains (r : Rect) (p : Pos) : Prop :=
  r.min.x ≤ p.x ∧ p.x ≤ r.max.x ∧ r.min.y ≤ p.y ∧ p.y ≤ r.max.y

instance (r : Rect) (p : Pos) : Decidable (r.contains p) := by
  unfold Rect.contains; infer_instance

/-- `egui::Rect::intersect`: componentwise max of mins, min of maxes. -/
def Rect.intersect (r o : Rect) : Rect :=
  ⟨⟨Max.max r.min.x o.min.x, Max.max r.min.y o.min.y⟩,
   ⟨Min.min r.max.x o.max.x, Min.min r.max.y o.max.y⟩⟩

/-- Rust `f32::clamp(lo, hi)` (requires `lo ≤ hi` in the source). -/
def fclamp (x lo hi : ℚ) : ℚ := min (max x lo) hi

/-- `geometry.rs::normalize_rect`. -/
def normalize_rect (r : Rect) : Rect :=
  ⟨⟨min r.min.x r.max.x, min r.min.y r.max.y⟩,
   ⟨max r.min.x r.max.x, max r.min.y r.max.y⟩⟩

/-- `shapes.rs::SelectionCorner`. -/
inductive SelectionCorner
  | topLeft
  | topRight
  | bottomLeft
  | bottomRight
deriving DecidableEq

/-- `geometry.rs::hit_corner`: first corner (in top-left, top-right,
bottom-left, bottom-right order) within `radius` of `pos`. -/
def hit_corner (rect : Rect) (pos : Pos) (radius : ℚ) : Option SelectionCorner :=
  let radius_sq := radius * radius
  if (pos.x - rect.min.x) * (pos.x - rect.min.x)
      + (pos.y - rect.min.y) * (pos.y - rect.min.y) ≤ radius_sq then
    some SelectionCorner.topLeft
  else if (pos.x - rect.max.x) * (pos.x - rect.max.x)
      + (pos.y - rect.min.y) * (pos.y - rect.min.y) ≤ radius_sq then
    some SelectionCorner.topRight
  else if (pos.x - rect.min.x) * (pos.x - rect.min.x)
      + (pos.y - rect.max.y) * (pos.y - rect.max.y) ≤ radius_sq then
    some SelectionCorner.bottomLeft
  else if (pos.x - rect.max.x) * (pos.x - rect.max.x)
      + (pos.y - rect.max.y) * (pos.y - rect.max.y) ≤ radius_sq then
    some SelectionCorner.bottomRight
  else
    none

/-- `shapes.rs::StrokeShape`. -/
structure StrokeShape where
  points : List Pos
  color : Rgba
  size : ℚ
deriving DecidableEq

/-- `shapes.rs::LineShape` (also used for Arrow/Rect/Circle two-point
shapes); the source field `end` is a Lean keyword, renamed `stop`. -/
structure LineShape where
  start : Pos
  stop : Pos
  color : Rgba
  size : ℚ
deriving DecidableEq

/-- `shapes.rs::CircleCountShape`. -/
structure CircleCountShape where
  center : Pos
  pointer : Pos
  color : Rgba
  size : ℚ
  count : Nat
deriving DecidableEq

/-- `shapes.rs::TextShape`. -/
structure TextShape where
  pos : Pos
  text : String
  color : Rgba
  size : ℚ
deriving DecidableEq

/-- `shapes.rs::EffectKind`. -/
inductive EffectKind
  | pixelate
  | blur
deriving DecidableEq

/-- `shapes.rs::EffectShape`; source field `end` renamed `stop`. -/
structure EffectShape where
  start : Pos
  stop : Pos
  size : ℚ
  kind : EffectKind
deriving DecidableEq

/-- `shapes.rs::Shape`: the closed tagged union of annotation shapes. -/
inductive Shape
  | stroke (s : StrokeShape)
  | line (s : LineShape)
  | arrow (s : LineShape)
  | rect (s : LineShape)
  | circle (s : LineShape)
  | circleCount (s : CircleCountShape)
  | text (s : TextShape)
  | effect (s : EffectShape)
deriving DecidableEq

/-- `shapes.rs::SelectionRect`. -/
structure SelectionRect where
  rect : Rect
deriving DecidableEq

/-- `shapes.rs::SelectionDrag`. -/
inductive SelectionDrag
  | creating (start : Pos)
  | moving (offset : Vec2)
  | resizing (corner : SelectionCorner)
deriving DecidableEq

/-- `u64` wrapping increment (`u64::wrapping_add(1)` on the version counter). -/
def wrap64 (n : Nat) : Nat := n % (2 ^ 64)

/-- `u32` wrapping value (`u32` arithmetic in release builds). -/
def wrap32 (n : Nat) : Nat := n % (2 ^ 32)

/-- `app.rs::EditorApp` — the editor session state the claims concern.
Presentation-only fields of the source struct (texture handles, tool palette
rectangles, cursor caches, the current tool/color/size, the in-progress
`active_shape` and `text_input`, `last_image_rect`, `last_pixels_per_point`)
are omitted: no claim reads them.  `effect_previews` entries are opaque cache
tokens (the source stores rendered textures); only their presence matters. -/
structure EditorApp where
  base_image : Img
  shapes : List Shape
  redo_stack : List Shape
  selection : Option SelectionRect
  selection_drag : Option SelectionDrag
  status : Option String
  shapes_version : Nat
  effect_previews : List Nat
  file_dialog_open : Bool

/-- `EditorApp::new`: fresh session over a captured image. -/
def EditorApp.new (img : Img) : EditorApp :=
  { base_image := img
    shapes := []
    redo_stack := []
    selection := none
    selection_drag := none
    status := none
    shapes_version := 0
    effect_previews := []
    file_dialog_open := false }

/-- `EditorApp::image_size`. -/
def EditorApp.image_size (app : EditorApp) : Vec2 :=
  ⟨(app.base_image.width : ℚ), (app.base_image.height : ℚ)⟩

/-- `EditorApp::push_shape` (commit): append, bump version, drop cached
previews, clear the redo stack. -/
def push_shape (app : EditorApp) (shape : Shape) : EditorApp :=
  { app with
    shapes := app.shapes ++ [shape]
    shapes_version := wrap64 (app.shapes_version + 1)
    effect_previews := []
    redo_stack := [] }

/-- `EditorApp::pop_shape` (undo): move the last committed shape onto the
redo stack; no-op when the list is empty. -/
def pop_shape (app : EditorApp) : EditorApp :=
  match app.shapes.getLast? with
  | some shape =>
      { app with
        shapes := app.shapes.dropLast
        redo_stack := app.redo_stack ++ [shape]
        shapes_version := wrap64 (app.shapes_version + 1)
        effect_previews := [] }
  | none => app

/-- `EditorApp::clear_shapes`: guarded on the shape list being non-empty. -/
def clear_shapes (app : EditorApp) : EditorApp :=
  if app.shapes.isEmpty then app
  else
    { app with
      shapes := []
      shapes_version := wrap64 (app.shapes_version + 1)
      effect_previews := []
      redo_stack := [] }

/-- `EditorApp::redo_shape`: move the last redo-stack shape back onto the
list; no-op when the redo stack is empty. -/
def redo_shape (app : EditorApp) : EditorApp :=
  match app.redo_stack.getLast? with
  | some shape =>
      { app with
        shapes := app.shapes ++ [shape]
        redo_stack := app.redo_stack.dropLast
        shapes_version := wrap64 (app.shapes_version + 1)
        effect_previews := [] }
  | none => app

/-- The loop body of `EditorApp::next_circle_count`: take the count of a
CircleCount shape into the running maximum, ignore other shapes. -/
def cc_fold (m : Nat) (s : Shape) : Nat :=
  match s with
  | Shape.circleCount c => Max.max m c.count
  | _ => m

/-- The `max_count` fold of `EditorApp::next_circle_count`. -/
def max_circle_count (shapes : List Shape) : Nat :=
  shapes.foldl cc_fold 0

/-- `EditorApp::next_circle_count`: 1 + the maximum count of the committed
CircleCount shapes (`u32` addition wraps in release builds). -/
def next_circle_count (app : EditorApp) : Nat :=
  wrap32 (max_circle_count app.shapes + 1)

/-- The shape built at a CircleCount press in `EditorApp::handle_input`
(`Tool::CircleCount` arm). -/
def press_circle_count (app : EditorApp) (img_pos : Pos) (color : Rgba) (size : ℚ) : Shape :=
  Shape.circleCount
    { center := img_pos
      pointer := img_pos
      color := color
      size := size
      count := next_circle_count app }

/-- Outcomes of the external clipboard helpers and encoders used by
`EditorApp::copy_and_close` (`clipboard.rs`): whether `WAYLAND_DISPLAY` is
set, whether PNG/BMP encoding succeeds, whether `wl-copy` and `xclip`
succeed. -/
structure ClipboardEnv where
  wayland : Bool
  png_ok : Bool
  wl_copy_ok : Bool
  xclip_png_ok : Bool
  bmp_ok : Bool
  xclip_bmp_ok : Bool

/-- `EditorApp::copy_and_close`: attempt clipboard export, set a status
string, then unconditionally send `ViewportCommand::Close`.  The returned
`Bool` is whether the close command was sent. -/
def copy_and_close (app : EditorApp) (env : ClipboardEnv) : EditorApp × Bool :=
  let copied_method : Bool × String :=
    if env.wayland then
      if env.png_ok then
        let wl_ok := env.wl_copy_ok
        let x11_ok := env.xclip_png_ok || (env.bmp_ok && env.xclip_bmp_ok)
        if wl_ok || x11_ok then
          (true,
            if wl_ok && x11_ok then "wl-copy image/png + xclip image/png/bmp"
            else if wl_ok then "wl-copy image/png"
            else if x11_ok then "xclip image/png/bmp"
            else "none")
        else (false, "none")
      else (false, "none")
    else (false, "none")
  let app :=
    if copied_method.1 then
      { app with status := some ("Copied to clipboard (" ++ copied_method.2 ++ ")") }
    else
      { app with status := some "Clipboard copy failed" }
  (app, true)

/-- The file-save branch of `EditorApp::update` (after the dialog returns a
path): save, set a status string, then unconditionally send
`ViewportCommand::Close`.  `save_ok` is the outcome of `rendered.save(&path)`,
`path_str`/`err_str` the displayed path and error.  The returned `Bool` is
whether the close command was sent. -/
def file_save_branch (app : EditorApp) (save_ok : Bool) (path_str err_str : String) :
    EditorApp × Bool :=
  let app :=
    if save_ok then { app with status := some ("Saved " ++ path_str) }
    else { app with status := some ("Save failed: " ++ err_str) }
  ({ app with file_dialog_open := false }, true)

/-- Pointer phase for one frame (`egui::PointerState` predicates
`primary_pressed` / `primary_down` / `primary_released`; `hover` when none
holds). -/
inductive PointerPhase
  | pressed
  | down
  | released
  | hover
deriving DecidableEq

/-- One pointer frame as seen by `EditorApp::handle_input`: the pointer
position already converted to image coordinates (before the clamp the
handler applies), the device scale, and the two screen-space gate tests the
handler performs (`is_over_ui`, `response.rect.contains`). -/
structure PointerEvent where
  phase : PointerPhase
  pos : Pos
  scale : ℚ
  over_ui : Bool
  inside_image : Bool

/-- `EditorApp::handle_selection_input`: the selection create/move/resize
state machine, fed a clamped image-space position. -/
def handle_selection_input (app : EditorApp) (phase : PointerPhase) (img_pos : Pos)
    (scale : ℚ) : EditorApp :=
  let handle_radius := 6 * scale
  let image_rect := Rect.from_min_size ⟨0, 0⟩ app.image_size
  match phase with
  | PointerPhase.pressed =>
    match app.selection with
    | some sel =>
      match hit_corner sel.rect img_pos handle_radius with
      | some corner =>
          { app with selection_drag := some (SelectionDrag.resizing corner) }
      | none =>
          if sel.rect.contains img_pos then
            { app with selection_drag := some (SelectionDrag.moving (img_pos - sel.rect.min)) }
          else
            { app with
              selection_drag := some (SelectionDrag.creating img_pos)
              selection := some ⟨Rect.from_two_pos img_pos img_pos⟩ }
    | none =>
        { app with
          selection_drag := some (SelectionDrag.creating img_pos)
          selection := some ⟨Rect.from_two_pos img_pos img_pos⟩ }
  | PointerPhase.down =>
    match app.selection_drag with
    | some (SelectionDrag.creating start) =>
        let rect := Rect.from_two_pos start img_pos
        { app with selection := some ⟨rect.intersect image_rect⟩ }
    | some (SelectionDrag.moving offset) =>
        match app.selection with
        | some sel =>
            let size := sel.rect.size
            let m : Pos := img_pos - offset
            let max_x := Max.max (app.image_size.x - size.x) 0
            let max_y := Max.max (app.image_size.y - size.y) 0
            let m : Pos := ⟨fclamp m.x 0 max_x, fclamp m.y 0 max_y⟩
            { app with selection := some ⟨Rect.from_min_size m size⟩ }
        | none => app
    | some (SelectionDrag.resizing corner) =>
        match app.selection with
        | some sel =>
            let rect := sel.rect
            let rect : Rect :=
              match corner with
              | SelectionCorner.topLeft => { rect with min := img_pos }
              | SelectionCorner.topRight =>
                  ⟨⟨rect.min.x, img_pos.y⟩, ⟨img_pos.x, rect.max.y⟩⟩
              | SelectionCorner.bottomLeft =>
                  ⟨⟨img_pos.x, rect.min.y⟩, ⟨rect.max.x, img_pos.y⟩⟩
              | SelectionCorner.bottomRight => { rect with max := img_pos }
            let rect := normalize_rect rect
            let rect := rect.intersect image_rect
            let rect := normalize_rect rect
            { app with selection := some ⟨rect⟩ }
        | none => app
    | none => app
  | PointerPhase.released =>
    let app := { app with selection_drag := none }
    match app.selection with
    | some sel =>
        if sel.rect.width < 1 ∨ sel.rect.height < 1 then { app with selection := none }
        else app
    | none => app
  | PointerPhase.hover => app

/-- One frame of `EditorApp::handle_input` with the Select tool active: the
gate tests, then the image-space clamp, then the selection machine. -/
def select_step (app : EditorApp) (e : PointerEvent) : EditorApp :=
  if app.file_dialog_open then app
  else if e.over_ui then app
  else if !e.inside_image then app
  else
    let img_pos : Pos :=
      ⟨fclamp e.pos.x 0 app.image_size.x, fclamp e.pos.y 0 app.image_size.y⟩
    handle_selection_input app e.phase img_pos e.scale

/-- Row-major grid of offsets added to a base coordinate: the coordinates
visited by a `for y { for x }` nest of `ny` by `nx` iterations. -/
def coord_grid (bx by2 : Nat) (nx ny : Nat) : List (Nat × Nat) :=
  (List.range ny).flatMap (fun j => (List.range nx).map (fun i => (bx + i, by2 + j)))

/-- `effects.rs::apply_pixelate` clamped cell bounds: `floor`/`ceil` of the
normalized rectangle, clamped to the image (`as u32` saturates negatives to
0, modelled by `Int.toNat`). -/
def pixelate_bounds (img : Img) (rect : Rect) : Nat × Nat × Nat × Nat :=
  let rect := normalize_rect rect
  ((Max.max (Int.floor rect.min.x) 0).toNat,
   (Max.max (Int.floor rect.min.y) 0).toNat,
   (Min.min (Int.ceil rect.max.x) (img.width : Int)).toNat,
   (Min.min (Int.ceil rect.max.y) (img.height : Int)).toNat)

/-- The coordinates of one pixelate cell: `y..by` rows of `x..bx` columns. -/
def cell_coords (x y bx by2 : Nat) : List (Nat × Nat) :=
  coord_grid x y (bx - x) (by2 - y)

/-- One cell of `effects.rs::apply_pixelate`: average the cell from the
current image, then overwrite the cell with the truncated mean (each
channel `(sum / count) as u8`). -/
def pixelate_cell (img : Img) (x y block max_x max_y : Nat) : Img :=
  let bx := Min.min (x + block) max_x
  let by2 := Min.min (y + block) max_y
  let coords := cell_coords x y bx by2
  let count := coords.length
  if count > 0 then
    let rs := (coords.map (fun p => (img.pix p.1 p.2).r)).sum
    let gs := (coords.map (fun p => (img.pix p.1 p.2).g)).sum
    let bs := (coords.map (fun p => (img.pix p.1 p.2).b)).sum
    let as_ := (coords.map (fun p => (img.pix p.1 p.2).a)).sum
    let avg : Rgba := ⟨rs / count % 256, gs / count % 256, bs / count % 256, as_ / count % 256⟩
    coords.foldl (fun im p => im.put_pixel p.1 p.2 avg) img
  else img

/-- `effects.rs::apply_pixelate`: walk the clamped rectangle in `block`
steps, row-major, averaging each cell. -/
def apply_pixelate (img : Img) (rect : Rect) (block : Nat) : Img :=
  let b := pixelate_bounds img rect
  let min_x := b.1
  let min_y := b.2.1
  let max_x := b.2.2.1
  let max_y := b.2.2.2
  let block := Max.max block 2
  let nx := (max_x - min_x + block - 1) / block
  let ny := (max_y - min_y + block - 1) / block
  let cells := (List.range ny).flatMap
    (fun j => (List.range nx).map (fun i => (min_x + block * i, min_y + block * j)))
  cells.foldl (fun im cell => pixelate_cell im cell.1 cell.2 block max_x max_y) img

/-- `effects.rs::apply_blur` clamped bounds, kept as `i32` as in the source
(`max_x`/`max_y` may be negative for rectangles left of or above the image). -/
def blur_bounds (img : Img) (rect : Rect) : Int × Int × Int × Int :=
  let rect := normalize_rect rect
  (Max.max (Int.floor rect.min.x) 0,
   Max.max (Int.floor rect.min.y) 0,
   Min.min (Int.ceil rect.max.x) (img.width : Int),
   Min.min (Int.ceil rect.max.y) (img.height : Int))

/-- The box window read for the blurred pixel `(x, y)`: `x0..=x1` times
`y0..=y1`, clipped at 0 and at the clamped rectangle bounds. -/
def blur_window (max_x max_y radius x y : Int) : List (Int × Int) :=
  let y0 := Max.max (y - radius) 0
  let y1 := Min.min (y + radius) (max_y - 1)
  let x0 := Max.max (x - radius) 0
  let x1 := Min.min (x + radius) (max_x - 1)
  (List.range (y1 - y0 + 1).toNat).flatMap
    (fun j : Nat => (List.range (x1 - x0 + 1).toNat).map
      (fun i : Nat => (x0 + (i : Int), y0 + (j : Int))))

/-- The truncated box average of the snapshot `original` over the window of
`(x, y)` (each channel `(sum / count) as u8`). -/
def blur_avg (original : Img) (max_x max_y radius x y : Int) : Rgba :=
  let w := blur_window max_x max_y radius x y
  let count := w.length
  ⟨(w.map (fun p => (original.pix p.1.toNat p.2.toNat).r)).sum / count % 256,
   (w.map (fun p => (original.pix p.1.toNat p.2.toNat).g)).sum / count % 256,
   (w.map (fun p => (original.pix p.1.toNat p.2.toNat).b)).sum / count % 256,
   (w.map (fun p => (original.pix p.1.toNat p.2.toNat).a)).sum / count % 256⟩

/-- The pixels written by the blur pass, row-major over the clamped
rectangle (`min_x`/`min_y` are never negative, so the loop coordinates are
carried as `Nat`). -/
def blur_pixels (min_x min_y max_x max_y : Int) : List (Nat × Nat) :=
  coord_grid min_x.toNat min_y.toNat (max_x - min_x).toNat (max_y - min_y).toNat

/-- `effects.rs::apply_blur`: snapshot the image (`original`), then for each
rectangle pixel average the snapshot over its clipped box window and write
the mean (guarded on a non-empty window, as in the source). -/
def apply_blur (img : Img) (rect : Rect) (radius : Nat) : Img :=
  let b := blur_bounds img rect
  let min_x := b.1
  let min_y := b.2.1
  let max_x := b.2.2.1
  let max_y := b.2.2.2
  let radius : Int := (Max.max radius 1 : Nat)
  let original := img
  (blur_pixels min_x min_y max_x max_y).foldl
    (fun im p =>
      let w := blur_window max_x max_y radius (p.1 : Int) (p.2 : Int)
      if w.length > 0 then
        im.put_pixel p.1 p.2 (blur_avg original max_x max_y radius (p.1 : Int) (p.2 : Int))
      else im)
    img

/-- `image_ops.rs::crop_image` clamped bounds: `floor(min)`/`ceil(max)`
clamped into `[0, width]`/`[0, height]`. -/
def crop_bounds (img : Img) (rect : Rect) : Nat × Nat × Nat × Nat :=
  ((Min.min (Max.max (Int.floor rect.min.x) 0) (img.width : Int)).toNat,
   (Min.min (Max.max (Int.floor rect.min.y) 0) (img.height : Int)).toNat,
   (Min.min (Max.max (Int.ceil rect.max.x) 0) (img.width : Int)).toNat,
   (Min.min (Max.max (Int.ceil rect.max.y) 0) (img.height : Int)).toNat)

/-- `image_ops.rs::crop_image`: when the clamped rectangle is degenerate
return a clone of the whole input, otherwise copy the clamped sub-region
pixel by pixel into a fresh image. -/
def crop_image (img : Img) (rect : Rect) : Img :=
  let b := crop_bounds img rect
  let min_x := b.1
  let min_y := b.2.1
  let max_x := b.2.2.1
  let max_y := b.2.2.2
  let out_w := max_x - min_x
  let out_h := max_y - min_y
  if out_w = 0 ∨ out_h = 0 then img
  else
    (coord_grid 0 0 out_w out_h).foldl
      (fun im p => im.put_pixel p.1 p.2 (img.pix (min_x + p.1) (min_y + p.2)))
      (Img.new out_w out_h)

/-- Rust `char::to_ascii_uppercase`: fold `a..z` to `A..Z`, leave every
other character unchanged. -/
def to_ascii_uppercase (c : Char) : Char :=
  if 97 ≤ c.toNat ∧ c.toNat ≤ 122 then Char.ofNat (c.toNat - 32) else c

/-- `lib.rs::glyph_5x7`: the 5-column bitmap table, after case folding the
input to uppercase; unsupported characters yield `none`. -/
def glyph_5x7 (ch : Char) : Option (List Nat) :=
  let c := to_ascii_uppercase ch
  match c with
  | '0' => some [0x3E, 0x51, 0x49, 0x45, 0x3E]
  | '1' => some [0x00, 0x42, 0x7F, 0x40, 0x00]
  | '2' => some [0x42, 0x61, 0x51, 0x49, 0x46]
  | '3' => some [0x21, 0x41, 0x45, 0x4B, 0x31]
  | '4' => some [0x18, 0x14, 0x12, 0x7F, 0x10]
  | '5' => some [0x27, 0x45, 0x45, 0x45, 0x39]
  | '6' => some [0x3C, 0x4A, 0x49, 0x49, 0x30]
  | '7' => some [0x01, 0x71, 0x09, 0x05, 0x03]
  | '8' => some [0x36, 0x49, 0x49, 0x49, 0x36]
  | '9' => some [0x06, 0x49, 0x49, 0x29, 0x1E]
  | 'A' => some [0x7E, 0x11, 0x11, 0x11, 0x7E]
  | 'B' => some [0x7F, 0x49, 0x49, 0x49, 0x36]
  | 'C' => some [0x3E, 0x41, 0x41, 0x41, 0x22]
  | 'D' => some [0x7F, 0x41, 0x41, 0x22, 0x1C]
  | 'E' => some [0x7F, 0x49, 0x49, 0x49, 0x41]
  | 'F' => some [0x7F, 0x09, 0x09, 0x09, 0x01]
  | 'G' => some [0x3E, 0x41, 0x49, 0x49, 0x3A]
  | 'H' => some [0x7F, 0x08, 0x08, 0x08, 0x7F]
  | 'I' => some [0x00, 0x41, 0x7F, 0x41, 0x00]
  | 'J' => some [0x20, 0x40, 0x41, 0x3F, 0x01]
  | 'K' => some [0x7F, 0x08, 0x14, 0x22, 0x41]
  | 'L' => some [0x7F, 0x40, 0x40, 0x40, 0x40]
  | 'M' => some [0x7F, 0x02, 0x0C, 0x02, 0x7F]
  | 'N' => some [0x7F, 0x04, 0x08, 0x10, 0x7F]
  | 'O' => some [0x3E, 0x41, 0x41, 0x41, 0x3E]
  | 'P' => some [0x7F, 0x09, 0x09, 0x09, 0x06]
  | 'Q' => some [0x3E, 0x41, 0x51, 0x21, 0x5E]
  | 'R' => some [0x7F, 0x09, 0x19, 0x29, 0x46]
  | 'S' => some [0x46, 0x49, 0x49, 0x49, 0x31]
  | 'T' => some [0x01, 0x01, 0x7F, 0x01, 0x01]
  | 'U' => some [0x3F, 0x40, 0x40, 0x40, 0x3F]
  | 'V' => some [0x1F, 0x20, 0x40, 0x20, 0x1F]
  | 'W' => some [0x7F, 0x20, 0x18, 0x20, 0x7F]
  | 'X' => some [0x63, 0x14, 0x08, 0x14, 0x63]
  | 'Y' => some [0x03, 0x04, 0x78, 0x04, 0x03]
  | 'Z' => some [0x61, 0x51, 0x49, 0x45, 0x43]
  | '-' => some [0x08, 0x08, 0x08, 0x08, 0x08]
  | '_' => some [0x40, 0x40, 0x40, 0x40, 0x40]
  | '.' => some [0x00, 0x60, 0x60, 0x00, 0x00]
  | ':' => some [0x00, 0x36, 0x36, 0x00, 0x00]
  | '/' => some [0x20, 0x10, 0x08, 0x04, 0x02]
  | '+' => some [0x08, 0x08, 0x3E, 0x08, 0x08]
  | '*' => some [0x14, 0x08, 0x3E, 0x08, 0x14]
  | '?' => some [0x02, 0x01, 0x51, 0x09, 0x06]
  | '!' => some [0x00, 0x00, 0x5F, 0x00, 0x00]
  | ' ' => some [0x00, 0x00, 0x00, 0x00, 0x00]
  | _ => none

/-- One bounds-checked pixel write of `lib.rs::draw_char_5x7`. -/
def stamp_cell (img : Img) (px py : Int) (color : Rgba) : Img :=
  if 0 ≤ px ∧ 0 ≤ py ∧ px < (img.width : Int) ∧ py < (img.height : Int) then
    img.put_pixel px.toNat py.toNat color
  else img

/-- `lib.rs::draw_char_5x7`: look the glyph up, then stamp a `scale`-scaled
block for every set bit; a character with no glyph draws nothing. -/
def draw_char_5x7 (img : Img) (x y : Int) (ch : Char) (color : Rgba) (scale : Nat) : Img :=
  match glyph_5x7 ch with
  | none => img
  | some glyph =>
      glyph.enum.foldl
        (fun im cb =>
          (List.range 7).foldl
            (fun im row =>
              if Nat.testBit cb.2 row then
                (List.range scale).foldl
                  (fun im sx =>
                    (List.range scale).foldl
                      (fun im sy =>
                        stamp_cell im
                          (x + (cb.1 : Int) * (scale : Int) + (sx : Int))
                          (y + (row : Int) * (scale : Int) + (sy : Int))
                          color)
                      im)
                  im
              else im)
            im)
        img

/-! ### Sample values used by witnesses and counterexamples -/

def sample_img : Img := Img.new 4 3

def sample_line : Shape :=
  Shape.line { start := ⟨0, 0⟩, stop := ⟨1, 1⟩, color := ⟨255, 0, 0, 255⟩, size := 3 }

def env_all_fail : ClipboardEnv :=
  { wayland := false, png_ok := false, wl_copy_ok := false,
    xclip_png_ok := false, bmp_ok := false, xclip_bmp_ok := false }

/-! ### History: commit / undo / redo / clear -/

/-- Claim C2: for every committed shape list `S` and every shape `X`,
`commit(X); undo()` yields shapes equal to `S` with `X` on the redo stack,
and a subsequent `redo()` yields `S ++ [X]`. -/
theorem commit_undo_redo_duality (app : EditorApp) (X : Shape) :
    (pop_shape (push_shape app X)).shapes = app.shapes ∧
    (pop_shape (push_shape app X)).redo_stack = [X] ∧
    (redo_shape (pop_shape (push_shape app X))).shapes = app.shapes ++ [X] := by
  simp [push_shape, pop_shape, redo_shape]

/-- Claim C4 counterexample: a reachable state with an empty shape list and
a non-empty redo stack (commit then undo) on which `clear_shapes` is a
complete no-op, leaving the redo stack non-empty — so it is false that the
redo stack is always empty after `clear()`. -/
theorem clear_shapes_counterexample :
    (clear_shapes (pop_shape (push_shape (EditorApp.new sample_img) sample_line))).redo_stack
      = [sample_line] := by
  simp [EditorApp.new, push_shape, pop_shape, clear_shapes]

/-- Claim C4 (amended): `clear_shapes` empties the shape list and the redo
stack when the shape list is non-empty; when the shape list is already
empty it is a complete no-op — in particular it leaves a non-empty redo
stack untouched. -/
theorem clear_shapes_spec (app : EditorApp) :
    (app.shapes ≠ [] →
      clear_shapes app =
        { app with
          shapes := []
          redo_stack := []
          shapes_version := wrap64 (app.shapes_version + 1)
          effect_previews := [] }) ∧
    (app.shapes = [] → clear_shapes app = app) := by
  constructor <;> intro h <;> simp [clear_shapes, h]

/-- Claim C4 witness: `clear_shapes_spec` applied to a state with one
committed shape and to a freshly opened editor. -/
theorem clear_shapes_spec_witness :
    (clear_shapes (push_shape (EditorApp.new sample_img) sample_line)).redo_stack = [] ∧
    clear_shapes (EditorApp.new sample_img) = EditorApp.new sample_img := by
  constructor
  · have h := (clear_shapes_spec (push_shape (EditorApp.new sample_img) sample_line)).1
      (by simp [push_shape])
    rw [h]
  · exact (clear_shapes_spec (EditorApp.new sample_img)).2 rfl

/-! ### CircleCount numbering -/

/-- Whether a shape is a CircleCount bubble. -/
def is_circle_count : Shape → Bool
  | Shape.circleCount _ => true
  | _ => false

/-- Pushing a list of shapes one by one (repeated `push_shape`). -/
def push_all (app : EditorApp) (l : List Shape) : EditorApp :=
  l.foldl push_shape app

lemma push_all_shapes (app : EditorApp) (l : List Shape) :
    (push_all app l).shapes = app.shapes ++ l := by
  induction l generalizing app with
  | nil => simp [push_all]
  | cons s t ih =>
      simp only [push_all, List.foldl_cons] at *
      rw [ih (push_shape app s)]
      simp [push_shape]

lemma cc_fold_step_nonCC (m : Nat) (s : Shape) (hs : is_circle_count s = false) :
    cc_fold m s = m := by
  cases s
  case circleCount c => simp [is_circle_count] at hs
  all_goals rfl

lemma max_circle_count_append_nonCC (l1 l2 : List Shape)
    (h : ∀ s ∈ l2, is_circle_count s = false) :
    max_circle_count (l1 ++ l2) = max_circle_count l1 := by
  unfold max_circle_count
  rw [List.foldl_append]
  generalize (List.foldl _ 0 l1) = m
  induction l2 generalizing m with
  | nil => rfl
  | cons s t ih =>
      rw [List.foldl_cons, cc_fold_step_nonCC m s (h s (by simp))]
      exact ih (fun x hx => h x (by simp [hx])) m

lemma max_circle_count_concat_cc (l : List Shape) (c : CircleCountShape) :
    max_circle_count (l ++ [Shape.circleCount c]) =
      Max.max (max_circle_count l) c.count := by
  unfold max_circle_count
  rw [List.foldl_append]
  rfl

lemma max_circle_count_nonCC (l : List Shape)
    (h : ∀ s ∈ l, is_circle_count s = false) :
    max_circle_count l = 0 := by
  have := max_circle_count_append_nonCC [] l h
  simpa [max_circle_count] using this

/-- Claim C3: starting from a session with no CircleCount shapes, with
arbitrary non-CircleCount shapes interleaved, three CircleCount presses are
numbered 1, 2, 3; after undoing the last one, the next CircleCount press is
numbered 3 again. -/
theorem circle_count_numbering (app : EditorApp) (A B C : List Shape)
    (hS : ∀ s ∈ app.shapes, is_circle_count s = false)
    (hA : ∀ s ∈ A, is_circle_count s = false)
    (hB : ∀ s ∈ B, is_circle_count s = false)
    (hC : ∀ s ∈ C, is_circle_count s = false)
    (p1 p2 p3 : Pos) (col : Rgba) (sz : ℚ) :
    next_circle_count (push_all app A) = 1 ∧
    next_circle_count
      (push_all (push_shape (push_all app A)
        (press_circle_count (push_all app A) p1 col sz)) B) = 2 ∧
    next_circle_count
      (push_all (push_shape
        (push_all (push_shape (push_all app A)
          (press_circle_count (push_all app A) p1 col sz)) B)
        (press_circle_count
          (push_all (push_shape (push_all app A)
            (press_circle_count (push_all app A) p1 col sz)) B) p2 col sz)) C) = 3 ∧
    next_circle_count
      (pop_shape (push_shape
        (push_all (push_shape
          (push_all (push_shape (push_all app A)
            (press_circle_count (push_all app A) p1 col sz)) B)
          (press_circle_count
            (push_all (push_shape (push_all app A)
              (press_circle_count (push_all app A) p1 col sz)) B) p2 col sz)) C)
        (press_circle_count
          (push_all (push_shape
            (push_all (push_shape (push_all app A)
              (press_circle_count (push_all app A) p1 col sz)) B)
            (press_circle_count
              (push_all (push_shape (push_all app A)
                (press_circle_count (push_all app A) p1 col sz)) B) p2 col sz)) C)
          p3 col sz))) = 3 := by
  have hSA : ∀ s ∈ app.shapes ++ A, is_circle_count s = false := by
    intro s hs
    rcases List.mem_append.mp hs with h | h
    · exact hS s h
    · exact hA s h
  set a1 := push_all app A with ha1
  have hmax1 : max_circle_count a1.shapes = 0 := by
    rw [ha1, push_all_shapes]
    exact max_circle_count_nonCC _ hSA
  have h1 : next_circle_count a1 = 1 := by
    unfold next_circle_count
    rw [hmax1]
    decide
  refine ⟨h1, ?_⟩
  set a3 := push_all (push_shape a1 (press_circle_count a1 p1 col sz)) B with ha3
  have hshapes2 :
      a3.shapes = a1.shapes ++ [press_circle_count a1 p1 col sz] ++ B := by
    rw [ha3, push_all_shapes]
    simp [push_shape]
  have hmax3 : max_circle_count a3.shapes = 1 := by
    rw [hshapes2, max_circle_count_append_nonCC _ _ hB]
    unfold press_circle_count
    rw [max_circle_count_concat_cc]
    dsimp only
    rw [hmax1, h1]
    decide
  have h2 : next_circle_count a3 = 2 := by
    unfold next_circle_count
    rw [hmax3]
    decide
  refine ⟨h2, ?_⟩
  set a5 := push_all (push_shape a3 (press_circle_count a3 p2 col sz)) C with ha5
  have hshapes4 :
      a5.shapes = a3.shapes ++ [press_circle_count a3 p2 col sz] ++ C := by
    rw [ha5, push_all_shapes]
    simp [push_shape]
  have hmax5 : max_circle_count a5.shapes = 2 := by
    rw [hshapes4, max_circle_count_append_nonCC _ _ hC]
    unfold press_circle_count
    rw [max_circle_count_concat_cc]
    dsimp only
    rw [hmax3, h2]
    decide
  have h3 : next_circle_count a5 = 3 := by
    unfold next_circle_count
    rw [hmax5]
    decide
  refine ⟨h3, ?_⟩
  have hpop :
      (pop_shape (push_shape a5 (press_circle_count a5 p3 col sz))).shapes = a5.shapes := by
    simp [push_shape, pop_shape]
  unfold next_circle_count
  rw [hpop, hmax5]
  decide

/-- Claim C3 witness: `circle_count_numbering` on a fresh session with one
plain line shape interleaved between the second and third CircleCount. -/
theorem circle_count_numbering_witness :
    next_circle_count (push_all (EditorApp.new sample_img) []) = 1 ∧
    next_circle_count
      (push_all (push_shape (push_all (EditorApp.new sample_img) [])
        (press_circle_count (push_all (EditorApp.new sample_img) []) ⟨1, 1⟩
          ⟨255, 0, 0, 255⟩ 3)) [sample_line]) = 2 ∧
    next_circle_count
      (push_all (push_shape
        (push_all (push_shape (push_all (EditorApp.new sample_img) [])
          (press_circle_count (push_all (EditorApp.new sample_img) []) ⟨1, 1⟩
            ⟨255, 0, 0, 255⟩ 3)) [sample_line])
        (press_circle_count
          (push_all (push_shape (push_all (EditorApp.new sample_img) [])
            (press_circle_count (push_all (EditorApp.new sample_img) []) ⟨1, 1⟩
              ⟨255, 0, 0, 255⟩ 3)) [sample_line]) ⟨2, 2⟩ ⟨255, 0, 0, 255⟩ 3)) []) = 3 ∧
    next_circle_count
      (pop_shape (push_shape
        (push_all (push_shape
          (push_all (push_shape (push_all (EditorApp.new sample_img) [])
            (press_circle_count (push_all (EditorApp.new sample_img) []) ⟨1, 1⟩
              ⟨255, 0, 0, 255⟩ 3)) [sample_line])
          (press_circle_count
            (push_all (push_shape (push_all (EditorApp.new sample_img) [])
              (press_circle_count (push_all (EditorApp.new sample_img) []) ⟨1, 1⟩
                ⟨255, 0, 0, 255⟩ 3)) [sample_line]) ⟨2, 2⟩ ⟨255, 0, 0, 255⟩ 3)) [])
        (press_circle_count
          (push_all (push_shape
            (push_all (push_shape (push_all (EditorApp.new sample_img) [])
              (press_circle_count (push_all (EditorApp.new sample_img) []) ⟨1, 1⟩
                ⟨255, 0, 0, 255⟩ 3)) [sample_line])
            (press_circle_count
              (push_all (push_shape (push_all (EditorApp.new sample_img) [])
                (press_circle_count (push_all (EditorApp.new sample_img) []) ⟨1, 1⟩
                  ⟨255, 0, 0, 255⟩ 3)) [sample_line]) ⟨2, 2⟩ ⟨255, 0, 0, 255⟩ 3)) [])
          ⟨3, 3⟩ ⟨255, 0, 0, 255⟩ 3))) = 3 :=
  circle_count_numbering (EditorApp.new sample_img) [] [sample_line] []
    (by simp [EditorApp.new]) (by simp) (by simp [sample_line, is_circle_count])
    (by simp) ⟨1, 1⟩ ⟨2, 2⟩ ⟨3, 3⟩ ⟨255, 0, 0, 255⟩ 3

/-! ### Export failure handling -/

/-- Claim C1 counterexample: with every clipboard path failing, and with a
failed file save, the close command is still sent — the session does not
stay open for a retry. -/
theorem export_failure_counterexample :
    (copy_and_close (EditorApp.new sample_img) env_all_fail).2 = true ∧
    (copy_and_close (EditorApp.new sample_img) env_all_fail).1.status
      = some "Clipboard copy failed" ∧
    (file_save_branch (EditorApp.new sample_img) false "shot.png" "disk full").2 = true ∧
    (file_save_branch (EditorApp.new sample_img) false "shot.png" "disk full").1.status
      = some "Save failed: disk full" := by
  refine ⟨rfl, rfl, rfl, rfl⟩

/-- Claim C1 (amended): whatever the export outcome, a human-readable status
string is set and the editor state (shapes, history, selection, image) is
otherwise unchanged — but the viewport close command is always sent, so
export, successful or failed, ends the session rather than leaving it open. -/
theorem export_sets_status_and_always_closes (app : EditorApp) (env : ClipboardEnv)
    (save_ok : Bool) (path_str err_str : String) :
    ((copy_and_close app env).1.status.isSome = true ∧
     (copy_and_close app env).1.shapes = app.shapes ∧
     (copy_and_close app env).1.redo_stack = app.redo_stack ∧
     (copy_and_close app env).1.selection = app.selection ∧
     (copy_and_close app env).1.base_image = app.base_image ∧
     (copy_and_close app env).2 = true) ∧
    ((file_save_branch app save_ok path_str err_str).1.status.isSome = true ∧
     (file_save_branch app save_ok path_str err_str).1.shapes = app.shapes ∧
     (file_save_branch app save_ok path_str err_str).1.redo_stack = app.redo_stack ∧
     (file_save_branch app save_ok path_str err_str).1.selection = app.selection ∧
     (file_save_branch app save_ok path_str err_str).1.base_image = app.base_image ∧
     (file_save_branch app save_ok path_str err_str).2 = true) := by
  unfold copy_and_close file_save_branch
  constructor <;> refine ⟨?_, ?_, ?_, ?_, ?_, rfl⟩ <;> dsimp only <;> (repeat' split) <;> rfl

/-! ### Degenerate selection rejection -/

/-- Claim C8: releasing the pointer while the current selection rectangle is
less than one pixel wide or tall discards the selection. -/
theorem degenerate_selection_release (app : EditorApp) (e : PointerEvent)
    (sel : SelectionRect)
    (hdlg : app.file_dialog_open = false)
    (hui : e.over_ui = false)
    (hin : e.inside_image = true)
    (hphase : e.phase = PointerPhase.released)
    (hsel : app.selection = some sel)
    (hdeg : sel.rect.width < 1 ∨ sel.rect.height < 1) :
    (select_step app e).selection = none := by
  unfold select_step handle_selection_input
  rw [hdlg, hui, hin, hphase]
  simp only [Bool.false_eq_true, if_false, Bool.not_true, hsel]
  simp [hdeg]

/-- Claim C8 witness: releasing over a 0.5-by-10 selection discards it. -/
theorem degenerate_selection_release_witness :
    (select_step
      { EditorApp.new sample_img with
        selection := some ⟨⟨⟨0, 0⟩, ⟨1/2, 10⟩⟩⟩ }
      { phase := PointerPhase.released, pos := ⟨1, 1⟩, scale := 1,
        over_ui := false, inside_image := true }).selection = none :=
  degenerate_selection_release _ _ ⟨⟨⟨0, 0⟩, ⟨1/2, 10⟩⟩⟩ rfl rfl rfl rfl rfl
    (Or.inl (by norm_num [Rect.width]))

/-! ### Pixel-write folds -/

lemma mem_coord_grid {bx by2 nx ny : Nat} {p : Nat × Nat} :
    p ∈ coord_grid bx by2 nx ny ↔
      bx ≤ p.1 ∧ p.1 < bx + nx ∧ by2 ≤ p.2 ∧ p.2 < by2 + ny := by
  obtain ⟨a, b⟩ := p
  simp only [coord_grid, List.mem_flatMap, List.mem_map, List.mem_range, Prod.mk.injEq]
  constructor
  · rintro ⟨j, hj, i, hi, rfl, rfl⟩
    omega
  · rintro ⟨h1, h2, h3, h4⟩
    exact ⟨b - by2, by omega, a - bx, by omega, by omega, by omega⟩

lemma length_flatMap_const {α β : Type} (l : List α) (f : α → List β) (n : Nat)
    (h : ∀ x ∈ l, (f x).length = n) : (l.flatMap f).length = l.length * n := by
  induction l with
  | nil => simp
  | cons x t ih =>
      simp only [List.flatMap_cons, List.length_append, List.length_cons]
      rw [h x (by simp), ih (fun z hz => h z (by simp [hz]))]
      ring

lemma length_coord_grid (bx by2 nx ny : Nat) :
    (coord_grid bx by2 nx ny).length = ny * nx := by
  unfold coord_grid
  rw [length_flatMap_const _ _ nx (fun j _ => by simp)]
  simp

lemma foldl_put_fun_width (v : Nat × Nat → Rgba) (l : List (Nat × Nat)) (img0 : Img) :
    (l.foldl (fun im p => im.put_pixel p.1 p.2 (v p)) img0).width = img0.width := by
  induction l generalizing img0 with
  | nil => rfl
  | cons p t ih =>
      rw [List.foldl_cons]
      exact ih _

lemma foldl_put_fun_height (v : Nat × Nat → Rgba) (l : List (Nat × Nat)) (img0 : Img) :
    (l.foldl (fun im p => im.put_pixel p.1 p.2 (v p)) img0).height = img0.height := by
  induction l generalizing img0 with
  | nil => rfl
  | cons p t ih =>
      rw [List.foldl_cons]
      exact ih _

/-- Looking a pixel up after a fold of writes whose written value depends
only on the coordinate: the write wins exactly on written coordinates. -/
lemma foldl_put_fun_pix (v : Nat × Nat → Rgba) (l : List (Nat × Nat)) (img0 : Img)
    (a b : Nat) :
    (l.foldl (fun im p => im.put_pixel p.1 p.2 (v p)) img0).pix a b
      = if (a, b) ∈ l then v (a, b) else img0.pix a b := by
  induction l generalizing img0 with
  | nil => simp
  | cons p t ih =>
      obtain ⟨px, py⟩ := p
      rw [List.foldl_cons, ih]
      by_cases hm : (a, b) ∈ t
      · simp [hm]
      · by_cases hp : a = px ∧ b = py
        · obtain ⟨rfl, rfl⟩ := hp
          simp [hm, Img.put_pixel]
        · have hne : ((a : Nat), (b : Nat)) ≠ (px, py) := by
            intro hEq
            injection hEq with h1 h2
            exact hp ⟨h1, h2⟩
          simp [hm, hne, Img.put_pixel, hp]

lemma foldl_put_cond_width (v : Nat × Nat → Rgba) (c : Nat × Nat → Prop) [DecidablePred c]
    (l : List (Nat × Nat)) (img0 : Img) :
    (l.foldl (fun im p => if c p then im.put_pixel p.1 p.2 (v p) else im) img0).width
      = img0.width := by
  induction l generalizing img0 with
  | nil => rfl
  | cons p t ih =>
      rw [List.foldl_cons]
      by_cases hc : c p
      · rw [if_pos hc]; exact ih _
      · rw [if_neg hc]; exact ih _

lemma foldl_put_cond_height (v : Nat × Nat → Rgba) (c : Nat × Nat → Prop) [DecidablePred c]
    (l : List (Nat × Nat)) (img0 : Img) :
    (l.foldl (fun im p => if c p then im.put_pixel p.1 p.2 (v p) else im) img0).height
      = img0.height := by
  induction l generalizing img0 with
  | nil => rfl
  | cons p t ih =>
      rw [List.foldl_cons]
      by_cases hc : c p
      · rw [if_pos hc]; exact ih _
      · rw [if_neg hc]; exact ih _

/-- As `foldl_put_fun_pix`, with each write guarded by a predicate on the
coordinate. -/
lemma foldl_put_cond_pix (v : Nat × Nat → Rgba) (c : Nat × Nat → Prop) [DecidablePred c]
    (l : List (Nat × Nat)) (img0 : Img) (a b : Nat) :
    (l.foldl (fun im p => if c p then im.put_pixel p.1 p.2 (v p) else im) img0).pix a b
      = if (a, b) ∈ l ∧ c (a, b) then v (a, b) else img0.pix a b := by
  induction l generalizing img0 with
  | nil => simp
  | cons p t ih =>
      obtain ⟨px, py⟩ := p
      rw [List.foldl_cons, ih]
      by_cases hm : (a, b) ∈ t ∧ c (a, b)
      · simp [hm.1, hm.2]
      · by_cases hp : a = px ∧ b = py
        · obtain ⟨rfl, rfl⟩ := hp
          by_cases hc : c (a, b)
          · simp [hc, Img.put_pixel, hm]
          · simp only [hc, and_false, if_false, if_neg hm, if_neg hc]
        · have hne : ((a : Nat), (b : Nat)) ≠ (px, py) := by
            intro hEq
            injection hEq with h1 h2
            exact hp ⟨h1, h2⟩
          by_cases hc : c (px, py)
          · simp only [if_pos hc, Img.put_pixel]
            simp [hm, hne, hp]
          · simp only [if_neg hc]
            simp [hm, hne]

/-! ### Crop -/

/-- Claim C10: when the crop rectangle clamped to the image is degenerate,
`crop_image` returns a copy of the whole input; otherwise it returns
exactly the clamped sub-region. -/
theorem crop_image_spec (img : Img) (rect : Rect) :
    ((crop_bounds img rect).2.2.1 - (crop_bounds img rect).1 = 0 ∨
        (crop_bounds img rect).2.2.2 - (crop_bounds img rect).2.1 = 0 →
      crop_image img rect = img) ∧
    (¬((crop_bounds img rect).2.2.1 - (crop_bounds img rect).1 = 0 ∨
        (crop_bounds img rect).2.2.2 - (crop_bounds img rect).2.1 = 0) →
      (crop_image img rect).width
          = (crop_bounds img rect).2.2.1 - (crop_bounds img rect).1 ∧
      (crop_image img rect).height
          = (crop_bounds img rect).2.2.2 - (crop_bounds img rect).2.1 ∧
      ∀ x y : Nat,
        x < (crop_bounds img rect).2.2.1 - (crop_bounds img rect).1 →
        y < (crop_bounds img rect).2.2.2 - (crop_bounds img rect).2.1 →
        (crop_image img rect).pix x y
          = img.pix ((crop_bounds img rect).1 + x) ((crop_bounds img rect).2.1 + y)) := by
  constructor
  · intro h
    unfold crop_image
    dsimp only
    rw [if_pos h]
  · intro h
    unfold crop_image
    dsimp only
    rw [if_neg h]
    refine ⟨?_, ?_, ?_⟩
    · rw [foldl_put_fun_width]
      rfl
    · rw [foldl_put_fun_height]
      rfl
    · intro x y hx hy
      rw [foldl_put_fun_pix]
      rw [if_pos ?_]
      rw [mem_coord_grid]
      omega

def sample_img2 : Img := ⟨4, 3, fun x y => ⟨x, y, x + y, 255⟩⟩

/-- Claim C10 witness: a rectangle entirely right of the 4-by-3 image crops
to the whole image; the rectangle (1,1)-(3,3) crops to its 2-by-2
sub-region. -/
theorem crop_image_spec_witness :
    crop_image sample_img2 ⟨⟨5, 0⟩, ⟨9, 2⟩⟩ = sample_img2 ∧
    (crop_image sample_img2 ⟨⟨1, 1⟩, ⟨3, 3⟩⟩).width = 2 ∧
    (crop_image sample_img2 ⟨⟨1, 1⟩, ⟨3, 3⟩⟩).pix 0 1 = sample_img2.pix 1 2 := by
  refine ⟨(crop_image_spec sample_img2 ⟨⟨5, 0⟩, ⟨9, 2⟩⟩).1 ?_, ?_, ?_⟩
  · left
    decide
  · rw [((crop_image_spec sample_img2 ⟨⟨1, 1⟩, ⟨3, 3⟩⟩).2 (by decide)).1]
    decide
  · rw [((crop_image_spec sample_img2 ⟨⟨1, 1⟩, ⟨3, 3⟩⟩).2 (by decide)).2.2 0 1
      (by decide) (by decide)]
    congr 1

/-! ### Pixelate on a uniform rectangle -/

lemma sum_map_eq_length_mul {α : Type} (l : List α) (f : α → Nat) (v : Nat)
    (h : ∀ x ∈ l, f x = v) : (l.map f).sum = l.length * v := by
  induction l with
  | nil => simp
  | cons x t ih =>
      simp only [List.map_cons, List.sum_cons, List.length_cons]
      rw [h x (by simp), ih (fun z hz => h z (by simp [hz]))]
      ring

lemma put_pixel_self (img : Img) (x y : Nat) (c : Rgba) (h : img.pix x y = c) :
    img.put_pixel x y c = img := by
  cases img with
  | mk w h' p =>
      simp only [Img.put_pixel]
      congr 1
      funext a b
      by_cases hab : a = x ∧ b = y
      · obtain ⟨rfl, rfl⟩ := hab
        simp only [and_self, if_true]
        exact h.symm
      · simp [hab]

lemma foldl_put_self (l : List (Nat × Nat)) (img : Img) (c : Rgba)
    (h : ∀ p ∈ l, img.pix p.1 p.2 = c) :
    l.foldl (fun im p => im.put_pixel p.1 p.2 c) img = img := by
  induction l with
  | nil => rfl
  | cons p t ih =>
      rw [List.foldl_cons, put_pixel_self _ _ _ _ (h p (by simp))]
      exact ih (fun q hq => h q (by simp [hq]))

lemma pixelate_cell_uniform (img : Img) (c : Rgba) (x y block mx my : Nat)
    (hr : c.r < 256) (hg : c.g < 256) (hb : c.b < 256) (ha : c.a < 256)
    (huni : ∀ px py : Nat, x ≤ px → px < mx → y ≤ py → py < my → img.pix px py = c) :
    pixelate_cell img x y block mx my = img := by
  unfold pixelate_cell
  simp only []
  split
  case isFalse => rfl
  case isTrue hcount =>
    have hmem : ∀ p ∈ cell_coords x y (Min.min (x + block) mx) (Min.min (y + block) my),
        img.pix p.1 p.2 = c := by
      intro p hp
      rw [cell_coords, mem_coord_grid] at hp
      exact huni p.1 p.2 (by omega) (by omega) (by omega) (by omega)
    set coords := cell_coords x y (Min.min (x + block) mx) (Min.min (y + block) my)
      with hcoords
    have hlen : coords.length ≠ 0 := by omega
    have hsum : ∀ f : Rgba → Nat, f c < 256 →
        (coords.map (fun p => f (img.pix p.1 p.2))).sum / coords.length % 256 = f c := by
      intro f hf
      rw [sum_map_eq_length_mul _ _ (f c) (fun p hp => by rw [hmem p hp])]
      rw [Nat.mul_div_cancel_left _ (Nat.pos_of_ne_zero hlen)]
      exact Nat.mod_eq_of_lt hf
    have havg :
        (⟨(coords.map (fun p => (img.pix p.1 p.2).r)).sum / coords.length % 256,
          (coords.map (fun p => (img.pix p.1 p.2).g)).sum / coords.length % 256,
          (coords.map (fun p => (img.pix p.1 p.2).b)).sum / coords.length % 256,
          (coords.map (fun p => (img.pix p.1 p.2).a)).sum / coords.length % 256⟩ : Rgba)
          = c := by
      rw [hsum (fun q => q.r) hr, hsum (fun q => q.g) hg,
        hsum (fun q => q.b) hb, hsum (fun q => q.a) ha]
    rw [havg]
    exact foldl_put_self _ _ _ hmem

lemma foldl_pixelate_cells_uniform (img : Img) (c : Rgba) (block mx my minx miny : Nat)
    (hr : c.r < 256) (hg : c.g < 256) (hb : c.b < 256) (ha : c.a < 256)
    (huni : ∀ x y : Nat, minx ≤ x → x < mx → miny ≤ y → y < my → img.pix x y = c) :
    ∀ cells : List (Nat × Nat), (∀ cell ∈ cells, minx ≤ cell.1 ∧ miny ≤ cell.2) →
      cells.foldl (fun im cell => pixelate_cell im cell.1 cell.2 block mx my) img = img := by
  intro cells
  induction cells with
  | nil => intro _; rfl
  | cons cl t ih =>
      intro hcl
      rw [List.foldl_cons,
        pixelate_cell_uniform img c cl.1 cl.2 block mx my hr hg hb ha ?_]
      · exact ih (fun z hz => hcl z (by simp [hz]))
      · intro px py h1 h2 h3 h4
        exact huni px py (le_trans (hcl cl (by simp)).1 h1) h2
          (le_trans (hcl cl (by simp)).2 h3) h4

/-- Claim C7: pixelating a rectangle whose clamped region is uniformly one
RGBA color, with any block size, leaves the image unchanged. -/
theorem pixelate_uniform_unchanged (img : Img) (rect : Rect) (block : Nat) (c : Rgba)
    (hr : c.r < 256) (hg : c.g < 256) (hb : c.b < 256) (ha : c.a < 256)
    (huni : ∀ x y : Nat,
      (pixelate_bounds img rect).1 ≤ x → x < (pixelate_bounds img rect).2.2.1 →
      (pixelate_bounds img rect).2.1 ≤ y → y < (pixelate_bounds img rect).2.2.2 →
      img.pix x y = c) :
    apply_pixelate img rect block = img := by
  unfold apply_pixelate
  simp only []
  apply foldl_pixelate_cells_uniform img c _ _ _ _ _ hr hg hb ha huni
  intro cell hcell
  simp only [List.mem_flatMap, List.mem_map, List.mem_range] at hcell
  obtain ⟨j, hj, i, hi, rfl⟩ := hcell
  exact ⟨Nat.le_add_right _ _, Nat.le_add_right _ _⟩

def uniform_img : Img := ⟨4, 3, fun _ _ => ⟨10, 20, 30, 255⟩⟩

/-- Claim C7 witness: pixelating the whole uniform 4-by-3 image with block
size 2 leaves it unchanged. -/
theorem pixelate_uniform_unchanged_witness :
    apply_pixelate uniform_img ⟨⟨0, 0⟩, ⟨4, 3⟩⟩ 2 = uniform_img :=
  pixelate_uniform_unchanged uniform_img ⟨⟨0, 0⟩, ⟨4, 3⟩⟩ 2 ⟨10, 20, 30, 255⟩
    (by norm_num) (by norm_num) (by norm_num) (by norm_num)
    (fun x y _ _ _ _ => rfl)

/-! ### Blur: bounded access, snapshot reads, clipped windows -/

lemma mem_int_grid {x0 y0 : Int} {nx ny : Nat} {p : Int × Int} :
    p ∈ (List.range ny).flatMap
        (fun j : Nat => (List.range nx).map
          (fun i : Nat => (x0 + (i : Int), y0 + (j : Int)))) ↔
      x0 ≤ p.1 ∧ p.1 < x0 + (nx : Int) ∧ y0 ≤ p.2 ∧ p.2 < y0 + (ny : Int) := by
  obtain ⟨a, b⟩ := p
  simp only [List.mem_flatMap, List.mem_map, List.mem_range, Prod.mk.injEq]
  constructor
  · rintro ⟨j, hj, i, hi, rfl, rfl⟩
    refine ⟨?_, ?_, ?_, ?_⟩ <;> omega
  · rintro ⟨h1, h2, h3, h4⟩
    exact ⟨(b - y0).toNat, by omega, (a - x0).toNat, by omega, by omega, by omega⟩

lemma mem_blur_window {mx my r x y : Int} {q : Int × Int} :
    q ∈ blur_window mx my r x y ↔
      Max.max (x - r) 0 ≤ q.1 ∧ q.1 ≤ Min.min (x + r) (mx - 1) ∧
      Max.max (y - r) 0 ≤ q.2 ∧ q.2 ≤ Min.min (y + r) (my - 1) := by
  unfold blur_window
  rw [mem_int_grid]
  constructor
  · rintro ⟨h1, h2, h3, h4⟩
    exact ⟨h1, by omega, h3, by omega⟩
  · rintro ⟨h1, h2, h3, h4⟩
    exact ⟨h1, by omega, h3, by omega⟩

lemma length_blur_window (mx my r x y : Int) :
    (blur_window mx my r x y).length
      = (Min.min (y + r) (my - 1) - Max.max (y - r) 0 + 1).toNat *
        (Min.min (x + r) (mx - 1) - Max.max (x - r) 0 + 1).toNat := by
  unfold blur_window
  rw [length_flatMap_const _ _
    ((Min.min (x + r) (mx - 1) - Max.max (x - r) 0 + 1).toNat)
    (fun j _ => by rw [List.length_map, List.length_range])]
  rw [List.length_range]

lemma blur_window_pos (mx my r x y : Int)
    (hx0 : 0 ≤ x) (hx : x < mx) (hy0 : 0 ≤ y) (hy : y < my) (hr : 0 ≤ r) :
    0 < (blur_window mx my r x y).length := by
  rw [length_blur_window]
  have h1 : 0 < (Min.min (y + r) (my - 1) - Max.max (y - r) 0 + 1).toNat := by omega
  have h2 : 0 < (Min.min (x + r) (mx - 1) - Max.max (x - r) 0 + 1).toNat := by omega
  exact Nat.mul_pos h1 h2

lemma blur_bounds_facts (img : Img) (rect : Rect) :
    0 ≤ (blur_bounds img rect).1 ∧ 0 ≤ (blur_bounds img rect).2.1 ∧
    (blur_bounds img rect).2.2.1 ≤ (img.width : Int) ∧
    (blur_bounds img rect).2.2.2 ≤ (img.height : Int) := by
  unfold blur_bounds
  exact ⟨le_max_right _ _, le_max_right _ _, min_le_right _ _, min_le_right _ _⟩

lemma mem_blur_pixels {min_x min_y max_x max_y : Int} {p : Nat × Nat} :
    p ∈ blur_pixels min_x min_y max_x max_y ↔
      min_x.toNat ≤ p.1 ∧ p.1 < min_x.toNat + (max_x - min_x).toNat ∧
      min_y.toNat ≤ p.2 ∧ p.2 < min_y.toNat + (max_y - min_y).toNat := by
  unfold blur_pixels
  exact mem_coord_grid

/-- Claim C6: the blur pass only touches pixels inside the image (writes in
the clamped rectangle, window reads in bounds, and the window is never
empty, so the out-of-range branch of the source pixel accessors is
unreachable); the result at every rectangle pixel is the box average of the
pre-pass snapshot and every other pixel is untouched; and when the clamped
rectangle starts at the image corner `(0,0)`, the corner pixel averages
over a strictly smaller window than any interior pixel. -/
theorem blur_bounded_snapshot_window (img : Img) (rect : Rect) (radius : Nat) :
    (∀ p ∈ blur_pixels (blur_bounds img rect).1 (blur_bounds img rect).2.1
        (blur_bounds img rect).2.2.1 (blur_bounds img rect).2.2.2,
      p.1 < img.width ∧ p.2 < img.height ∧
      0 < (blur_window (blur_bounds img rect).2.2.1 (blur_bounds img rect).2.2.2
            ((Max.max radius 1 : Nat) : Int) (p.1 : Int) (p.2 : Int)).length ∧
      ∀ q ∈ blur_window (blur_bounds img rect).2.2.1 (blur_bounds img rect).2.2.2
            ((Max.max radius 1 : Nat) : Int) (p.1 : Int) (p.2 : Int),
        0 ≤ q.1 ∧ q.1 < (img.width : Int) ∧ 0 ≤ q.2 ∧ q.2 < (img.height : Int)) ∧
    (∀ a b : Nat,
      ((a, b) ∈ blur_pixels (blur_bounds img rect).1 (blur_bounds img rect).2.1
          (blur_bounds img rect).2.2.1 (blur_bounds img rect).2.2.2 →
        (apply_blur img rect radius).pix a b
          = blur_avg img (blur_bounds img rect).2.2.1 (blur_bounds img rect).2.2.2
              ((Max.max radius 1 : Nat) : Int) (a : Int) (b : Int)) ∧
      ((a, b) ∉ blur_pixels (blur_bounds img rect).1 (blur_bounds img rect).2.1
          (blur_bounds img rect).2.2.1 (blur_bounds img rect).2.2.2 →
        (apply_blur img rect radius).pix a b = img.pix a b)) ∧
    ((blur_bounds img rect).1 = 0 → (blur_bounds img rect).2.1 = 0 →
      ∀ x y : Int,
        ((Max.max radius 1 : Nat) : Int) ≤ x →
        x + ((Max.max radius 1 : Nat) : Int) ≤ (blur_bounds img rect).2.2.1 - 1 →
        ((Max.max radius 1 : Nat) : Int) ≤ y →
        y + ((Max.max radius 1 : Nat) : Int) ≤ (blur_bounds img rect).2.2.2 - 1 →
        (blur_window (blur_bounds img rect).2.2.1 (blur_bounds img rect).2.2.2
            ((Max.max radius 1 : Nat) : Int) 0 0).length
          < (blur_window (blur_bounds img rect).2.2.1 (blur_bounds img rect).2.2.2
              ((Max.max radius 1 : Nat) : Int) x y).length) := by
  obtain ⟨hb1, hb2, hb3, hb4⟩ := blur_bounds_facts img rect
  have hr0 : (0 : Int) ≤ ((Max.max radius 1 : Nat) : Int) := Int.ofNat_nonneg _
  have hr1 : (1 : Int) ≤ ((Max.max radius 1 : Nat) : Int) := by
    have : 1 ≤ Max.max radius 1 := Nat.le_max_right radius 1
    exact_mod_cast this
  refine ⟨?_, ?_, ?_⟩
  · intro p hp
    rw [mem_blur_pixels] at hp
    have hx : (p.1 : Int) < (blur_bounds img rect).2.2.1 := by omega
    have hy : (p.2 : Int) < (blur_bounds img rect).2.2.2 := by omega
    refine ⟨by omega, by omega,
      blur_window_pos _ _ _ _ _ (by omega) hx (by omega) hy hr0, ?_⟩
    intro q hq
    rw [mem_blur_window] at hq
    omega
  · intro a b
    have hchar :
        (apply_blur img rect radius).pix a b
          = if ((a, b) ∈ blur_pixels (blur_bounds img rect).1 (blur_bounds img rect).2.1
                  (blur_bounds img rect).2.2.1 (blur_bounds img rect).2.2.2 ∧
                0 < (blur_window (blur_bounds img rect).2.2.1 (blur_bounds img rect).2.2.2
                      ((Max.max radius 1 : Nat) : Int) ((a, b).1 : Int) ((a, b).2 : Int)).length)
            then blur_avg img (blur_bounds img rect).2.2.1 (blur_bounds img rect).2.2.2
                   ((Max.max radius 1 : Nat) : Int) ((a, b).1 : Int) ((a, b).2 : Int)
            else img.pix a b :=
      foldl_put_cond_pix
        (fun p => blur_avg img (blur_bounds img rect).2.2.1 (blur_bounds img rect).2.2.2
          ((Max.max radius 1 : Nat) : Int) (p.1 : Int) (p.2 : Int))
        (fun p => 0 < (blur_window (blur_bounds img rect).2.2.1 (blur_bounds img rect).2.2.2
          ((Max.max radius 1 : Nat) : Int) (p.1 : Int) (p.2 : Int)).length)
        (blur_pixels (blur_bounds img rect).1 (blur_bounds img rect).2.1
          (blur_bounds img rect).2.2.1 (blur_bounds img rect).2.2.2)
        img a b
    constructor
    · intro hmem
      have hposmem := hmem
      rw [mem_blur_pixels] at hposmem
      have hpos : 0 < (blur_window (blur_bounds img rect).2.2.1 (blur_bounds img rect).2.2.2
          ((Max.max radius 1 : Nat) : Int) (a : Int) (b : Int)).length :=
        blur_window_pos _ _ _ _ _ (by omega) (by omega) (by omega) (by omega) hr0
      rw [hchar, if_pos ⟨hmem, hpos⟩]
    · intro hmem
      rw [hchar, if_neg (fun hcontra => hmem hcontra.1)]
  · intro hminx hminy x y hx1 hx2 hy1 hy2
    rw [length_blur_window, length_blur_window]
    have e1 : (Min.min ((0 : Int) + ((Max.max radius 1 : Nat) : Int))
          ((blur_bounds img rect).2.2.2 - 1)
        - Max.max ((0 : Int) - ((Max.max radius 1 : Nat) : Int)) 0 + 1).toNat
        = ((Max.max radius 1 : Nat) : Int).toNat + 1 := by omega
    have e2 : (Min.min ((0 : Int) + ((Max.max radius 1 : Nat) : Int))
          ((blur_bounds img rect).2.2.1 - 1)
        - Max.max ((0 : Int) - ((Max.max radius 1 : Nat) : Int)) 0 + 1).toNat
        = ((Max.max radius 1 : Nat) : Int).toNat + 1 := by omega
    have e3 : (Min.min (y + ((Max.max radius 1 : Nat) : Int))
          ((blur_bounds img rect).2.2.2 - 1)
        - Max.max (y - ((Max.max radius 1 : Nat) : Int)) 0 + 1).toNat
        = 2 * ((Max.max radius 1 : Nat) : Int).toNat + 1 := by omega
    have e4 : (Min.min (x + ((Max.max radius 1 : Nat) : Int))
          ((blur_bounds img rect).2.2.1 - 1)
        - Max.max (x - ((Max.max radius 1 : Nat) : Int)) 0 + 1).toNat
        = 2 * ((Max.max radius 1 : Nat) : Int).toNat + 1 := by omega
    rw [e1, e2, e3, e4]
    have hrn : 1 ≤ ((Max.max radius 1 : Nat) : Int).toNat := by omega
    nlinarith [hrn]

/-- Claim C6 witness: blurring the whole 4-by-3 image with radius 1 — the
pixel (1,1) ends up as the snapshot window mean, and the corner pixel
window (4 samples) is strictly smaller than the interior window
(9 samples). -/
theorem blur_bounded_snapshot_window_witness :
    (apply_blur sample_img2 ⟨⟨0, 0⟩, ⟨4, 3⟩⟩ 1).pix 1 1
      = blur_avg sample_img2 4 3 ((Max.max 1 1 : Nat) : Int) 1 1 ∧
    (blur_window 4 3 ((Max.max 1 1 : Nat) : Int) 0 0).length
      < (blur_window 4 3 ((Max.max 1 1 : Nat) : Int) 1 1).length := by
  have hb : blur_bounds sample_img2 ⟨⟨0, 0⟩, ⟨4, 3⟩⟩ = (0, 0, 4, 3) := by decide
  have h := blur_bounded_snapshot_window sample_img2 ⟨⟨0, 0⟩, ⟨4, 3⟩⟩ 1
  rw [hb] at h
  exact ⟨(h.2.1 1 1).1 (by decide),
    h.2.2 rfl rfl 1 1 (by decide) (by decide) (by decide) (by decide)⟩

/-! ### Glyph case folding -/

lemma glyph_case_fold : ∀ n : Nat, n < 26 →
    to_ascii_uppercase (Char.ofNat (97 + n)) = Char.ofNat (65 + n) ∧
    glyph_5x7 (Char.ofNat (97 + n)) = glyph_5x7 (Char.ofNat (65 + n)) ∧
    (glyph_5x7 (Char.ofNat (97 + n))).isSome = true := by
  decide

/-- Claim C9: every lowercase ASCII letter (`Char.ofNat (97 + n)` for
`n < 26`) draws exactly the same pixels as its uppercase counterpart — the
glyph lookup case-folds to uppercase — and its glyph lookup succeeds, so
lowercase letters are never skipped as unsupported. -/
theorem lowercase_glyph_same_pixels (img : Img) (x y : Int) (color : Rgba) (scale : Nat)
    (n : Nat) (h : n < 26) :
    draw_char_5x7 img x y (Char.ofNat (97 + n)) color scale
      = draw_char_5x7 img x y (to_ascii_uppercase (Char.ofNat (97 + n))) color scale ∧
    (glyph_5x7 (Char.ofNat (97 + n))).isSome = true := by
  obtain ⟨h1, h2, h3⟩ := glyph_case_fold n h
  refine ⟨?_, h3⟩
  rw [h1]
  unfold draw_char_5x7
  rw [h2]

/-- Claim C9 witness: drawing the letter with code 97 (lowercase a) equals
drawing its uppercase counterpart. -/
theorem lowercase_glyph_same_pixels_witness :
    draw_char_5x7 sample_img2 0 0 (Char.ofNat (97 + 0)) ⟨255, 0, 0, 255⟩ 1
      = draw_char_5x7 sample_img2 0 0 (to_ascii_uppercase (Char.ofNat (97 + 0)))
          ⟨255, 0, 0, 255⟩ 1 ∧
    (glyph_5x7 (Char.ofNat (97 + 0))).isSome = true :=
  lowercase_glyph_same_pixels sample_img2 0 0 ⟨255, 0, 0, 255⟩ 1 0 (by norm_num)

/-! ### Selection clamp invariant -/

/-- A point lies in the closed image box `[0,w] x [0,h]`. -/
def pos_in_bounds (w h : ℚ) (p : Pos) : Prop :=
  0 ≤ p.x ∧ p.x ≤ w ∧ 0 ≤ p.y ∧ p.y ≤ h

/-- A rectangle is non-inverted and contained in `[0,w] x [0,h]`. -/
def rect_in_bounds (w h : ℚ) (r : Rect) : Prop :=
  0 ≤ r.min.x ∧ r.min.x ≤ r.max.x ∧ r.max.x ≤ w ∧
  0 ≤ r.min.y ∧ r.min.y ≤ r.max.y ∧ r.max.y ≤ h

/-- Both corner points lie in the image box (no ordering). -/
def rect_comps_in (w h : ℚ) (r : Rect) : Prop :=
  pos_in_bounds w h r.min ∧ pos_in_bounds w h r.max

/-- The selection-machine invariant: any current selection rectangle is
valid and clamped, and a pending `Creating` anchor lies in the image box. -/
def sel_invariant (w h : ℚ) (app : EditorApp) : Prop :=
  (∀ sel : SelectionRect, app.selection = some sel → rect_in_bounds w h sel.rect) ∧
  (∀ p : Pos, app.selection_drag = some (SelectionDrag.creating p) → pos_in_bounds w h p)

lemma fclamp_bounds (x lo hi : ℚ) (h : lo ≤ hi) :
    lo ≤ fclamp x lo hi ∧ fclamp x lo hi ≤ hi :=
  ⟨le_min (le_max_right x lo) h, min_le_right _ _⟩

lemma rect_in_to_comps (w h : ℚ) (r : Rect) (hr : rect_in_bounds w h r) :
    rect_comps_in w h r := by
  obtain ⟨a1, a2, a3, a4, a5, a6⟩ := hr
  exact ⟨⟨a1, by linarith, a4, by linarith⟩, ⟨by linarith, a3, by linarith, a6⟩⟩

lemma normalize_in (w h : ℚ) (r : Rect) (hc : rect_comps_in w h r) :
    rect_in_bounds w h (normalize_rect r) := by
  obtain ⟨⟨a1, a2, a3, a4⟩, ⟨b1, b2, b3, b4⟩⟩ := hc
  unfold normalize_rect
  refine ⟨le_min a1 b1, ?_, max_le a2 b2, le_min a3 b3, ?_, max_le a4 b4⟩
  · exact le_trans (min_le_left _ _) (le_max_left _ _)
  · exact le_trans (min_le_left _ _) (le_max_left _ _)

lemma intersect_image_in (w h : ℚ) (r : Rect) (hr : rect_in_bounds w h r) :
    rect_in_bounds w h (r.intersect (Rect.from_min_size ⟨0, 0⟩ ⟨w, h⟩)) := by
  obtain ⟨a1, a2, a3, a4, a5, a6⟩ := hr
  unfold Rect.intersect Rect.from_min_size rect_in_bounds
  dsimp only
  refine ⟨le_max_right _ _, ?_, ?_, le_max_right _ _, ?_, ?_⟩
  · exact le_min (max_le a2 (by linarith)) (max_le (by linarith) (by linarith))
  · exact le_trans (min_le_right _ _) (by linarith)
  · exact le_min (max_le a5 (by linarith)) (max_le (by linarith) (by linarith))
  · exact le_trans (min_le_right _ _) (by linarith)

lemma from_two_pos_in (w h : ℚ) (a b : Pos)
    (hpa : pos_in_bounds w h a) (hpb : pos_in_bounds w h b) :
    rect_in_bounds w h (Rect.from_two_pos a b) := by
  obtain ⟨a1, a2, a3, a4⟩ := hpa
  obtain ⟨b1, b2, b3, b4⟩ := hpb
  unfold Rect.from_two_pos
  exact ⟨le_min a1 b1, le_trans (min_le_left _ _) (le_max_left _ _), max_le a2 b2,
    le_min a3 b3, le_trans (min_le_left _ _) (le_max_left _ _), max_le a4 b4⟩

lemma moving_rect_in (w h : ℚ) (sel : Rect) (hr : rect_in_bounds w h sel) (m0 : Pos) :
    rect_in_bounds w h
      (Rect.from_min_size
        ⟨fclamp m0.x 0 (Max.max (w - sel.size.x) 0),
         fclamp m0.y 0 (Max.max (h - sel.size.y) 0)⟩
        sel.size) := by
  obtain ⟨a1, a2, a3, a4, a5, a6⟩ := hr
  have hsx0 : 0 ≤ sel.size.x := by
    unfold Rect.size Rect.width Rect.height
    dsimp only
    linarith
  have hsy0 : 0 ≤ sel.size.y := by
    unfold Rect.size Rect.width Rect.height
    dsimp only
    linarith
  have hsxw : sel.size.x ≤ w := by
    unfold Rect.size Rect.width Rect.height
    dsimp only
    linarith
  have hsyh : sel.size.y ≤ h := by
    unfold Rect.size Rect.width Rect.height
    dsimp only
    linarith
  have hmx : Max.max (w - sel.size.x) 0 = w - sel.size.x := max_eq_left (by linarith)
  have hmy : Max.max (h - sel.size.y) 0 = h - sel.size.y := max_eq_left (by linarith)
  rw [hmx, hmy]
  obtain ⟨c1, c2⟩ := fclamp_bounds m0.x 0 (w - sel.size.x) (by linarith)
  obtain ⟨c3, c4⟩ := fclamp_bounds m0.y 0 (h - sel.size.y) (by linarith)
  unfold Rect.from_min_size rect_in_bounds
  dsimp only
  exact ⟨c1, by linarith, by linarith, c3, by linarith, by linarith⟩

lemma handle_selection_preserves (app : EditorApp) (phase : PointerPhase) (img_pos : Pos)
    (scale : ℚ)
    (hinv : sel_invariant app.image_size.x app.image_size.y app)
    (hpos : pos_in_bounds app.image_size.x app.image_size.y img_pos) :
    sel_invariant app.image_size.x app.image_size.y
      (handle_selection_input app phase img_pos scale) := by
  obtain ⟨hsel, hdrag⟩ := hinv
  unfold handle_selection_input
  dsimp only
  cases phase with
  | pressed =>
      dsimp only
      cases hso : app.selection with
      | none =>
          dsimp only
          refine ⟨?_, ?_⟩
          · intro sel hs
            dsimp only at hs
            simp only [Option.some.injEq] at hs
            subst hs
            exact from_two_pos_in _ _ _ _ hpos hpos
          · intro p hp
            dsimp only at hp
            simp only [Option.some.injEq, SelectionDrag.creating.injEq] at hp
            subst hp
            exact hpos
      | some sel0 =>
          dsimp only
          cases hco : hit_corner sel0.rect img_pos (6 * scale) with
          | some corner =>
              dsimp only
              refine ⟨?_, ?_⟩
              · intro sel hs
                dsimp only at hs
                simp only [Option.some.injEq] at hs
                subst hs
                exact hsel sel0 hso
              · intro p hp
                dsimp only at hp
                simp at hp
          | none =>
              dsimp only
              by_cases hcont : sel0.rect.contains img_pos
              · rw [if_pos hcont]
                refine ⟨?_, ?_⟩
                · intro sel hs
                  dsimp only at hs
                  simp only [Option.some.injEq] at hs
                  subst hs
                  exact hsel sel0 hso
                · intro p hp
                  dsimp only at hp
                  simp at hp
              · rw [if_neg hcont]
                refine ⟨?_, ?_⟩
                · intro sel hs
                  dsimp only at hs
                  simp only [Option.some.injEq] at hs
                  subst hs
                  exact from_two_pos_in _ _ _ _ hpos hpos
                · intro p hp
                  dsimp only at hp
                  simp only [Option.some.injEq, SelectionDrag.creating.injEq] at hp
                  subst hp
                  exact hpos
  | down =>
      dsimp only
      cases hdo : app.selection_drag with
      | none => exact ⟨hsel, hdrag⟩
      | some drag =>
          cases drag with
          | creating start =>
              dsimp only
              refine ⟨?_, ?_⟩
              · intro sel hs
                dsimp only at hs
                simp only [Option.some.injEq] at hs
                subst hs
                dsimp only
                exact intersect_image_in _ _ _
                  (from_two_pos_in _ _ _ _ (hdrag start hdo) hpos)
              · intro p hp
                dsimp only at hp
                simp only [Option.some.injEq, SelectionDrag.creating.injEq] at hp
                subst hp
                exact hdrag start hdo
          | moving offset =>
              dsimp only
              cases hso : app.selection with
              | none => exact ⟨hsel, hdrag⟩
              | some sel0 =>
                  dsimp only
                  refine ⟨?_, ?_⟩
                  · intro sel hs
                    dsimp only at hs
                    simp only [Option.some.injEq] at hs
                    subst hs
                    dsimp only
                    exact moving_rect_in _ _ _ (hsel sel0 hso) _
                  · intro p hp
                    dsimp only at hp
                    simp at hp
          | resizing corner =>
              dsimp only
              cases hso : app.selection with
              | none => exact ⟨hsel, hdrag⟩
              | some sel0 =>
                  dsimp only
                  obtain ⟨a1, a2, a3, a4, a5, a6⟩ := hsel sel0 hso
                  obtain ⟨b1, b2, b3, b4⟩ := hpos
                  refine ⟨?_, ?_⟩
                  · intro sel hs
                    dsimp only at hs
                    simp only [Option.some.injEq] at hs
                    subst hs
                    dsimp only
                    cases corner <;>
                      refine normalize_in _ _ _ (rect_in_to_comps _ _ _
                        (intersect_image_in _ _ _ (normalize_in _ _ _ ?_))) <;>
                      unfold rect_comps_in pos_in_bounds <;> dsimp only <;>
                      exact ⟨⟨by linarith, by linarith, by linarith, by linarith⟩,
                        ⟨by linarith, by linarith, by linarith, by linarith⟩⟩
                  · intro p hp
                    dsimp only at hp
                    simp at hp
  | released =>
      dsimp only
      cases hso : app.selection with
      | none =>
          refine ⟨?_, ?_⟩
          · intro sel hs
            dsimp only at hs
            simp at hs
          · intro p hp
            dsimp only at hp
            simp at hp
      | some sel0 =>
          dsimp only
          split
          · refine ⟨?_, ?_⟩
            · intro sel hs
              dsimp only at hs
              simp at hs
            · intro p hp
              dsimp only at hp
              simp at hp
          · refine ⟨?_, ?_⟩
            · intro sel hs
              dsimp only at hs
              simp only [Option.some.injEq] at hs
              subst hs
              exact hsel sel0 hso
            · intro p hp
              dsimp only at hp
              simp at hp
  | hover => exact ⟨hsel, hdrag⟩

lemma handle_selection_base (app : EditorApp) (phase : PointerPhase) (img_pos : Pos)
    (scale : ℚ) :
    (handle_selection_input app phase img_pos scale).base_image = app.base_image := by
  unfold handle_selection_input
  dsimp only
  repeat' split
  all_goals rfl

lemma select_step_base (app : EditorApp) (e : PointerEvent) :
    (select_step app e).base_image = app.base_image := by
  unfold select_step
  split
  · rfl
  · split
    · rfl
    · split
      · rfl
      · exact handle_selection_base _ _ _ _

lemma select_step_preserves (app : EditorApp) (e : PointerEvent)
    (hinv : sel_invariant app.image_size.x app.image_size.y app) :
    sel_invariant app.image_size.x app.image_size.y (select_step app e) := by
  unfold select_step
  split
  · exact hinv
  · split
    · exact hinv
    · split
      · exact hinv
      · apply handle_selection_preserves _ _ _ _ hinv
        have hw0 : (0 : ℚ) ≤ app.image_size.x := by
          unfold EditorApp.image_size
          exact Nat.cast_nonneg _
        have hh0 : (0 : ℚ) ≤ app.image_size.y := by
          unfold EditorApp.image_size
          exact Nat.cast_nonneg _
        obtain ⟨c1, c2⟩ := fclamp_bounds e.pos.x 0 app.image_size.x hw0
        obtain ⟨c3, c4⟩ := fclamp_bounds e.pos.y 0 app.image_size.y hh0
        exact ⟨c1, c2, c3, c4⟩

/-- Claim C5: from a fresh editor session, for any sequence of pointer
events routed to the Select tool, any selection rectangle ever present is
non-inverted and fully contained in `[0, width] x [0, height]` of the
image. -/
theorem selection_clamp_invariant (img : Img) (events : List PointerEvent) :
    ∀ sel : SelectionRect,
      (events.foldl select_step (EditorApp.new img)).selection = some sel →
        rect_in_bounds (img.width : ℚ) (img.height : ℚ) sel.rect := by
  have hmain : ∀ (l : List PointerEvent) (a : EditorApp),
      sel_invariant a.image_size.x a.image_size.y a →
      sel_invariant a.image_size.x a.image_size.y (l.foldl select_step a) := by
    intro l
    induction l with
    | nil => intro a hinv; exact hinv
    | cons e t ih =>
        intro a hinv
        rw [List.foldl_cons]
        have hsz : (select_step a e).image_size = a.image_size := by
          unfold EditorApp.image_size
          rw [select_step_base]
        have h1 := select_step_preserves a e hinv
        rw [← hsz] at h1
        have h2 := ih (select_step a e) h1
        rw [hsz] at h2
        exact h2
  intro sel hs
  have hinv0 : sel_invariant (EditorApp.new img).image_size.x
      (EditorApp.new img).image_size.y (EditorApp.new img) := by
    constructor
    · intro s h
      simp [EditorApp.new] at h
    · intro p h
      simp [EditorApp.new] at h
  exact (hmain events (EditorApp.new img) hinv0).1 sel hs

def sample_event : PointerEvent :=
  { phase := PointerPhase.pressed, pos := ⟨10, 10⟩, scale := 1,
    over_ui := false, inside_image := true }

/-- Claim C5 witness: a single press at (10,10) over a 100-by-80 capture
yields the degenerate-but-valid clamped rectangle at that point. -/
theorem selection_clamp_invariant_witness :
    rect_in_bounds ((Img.new 100 80).width : ℚ) ((Img.new 100 80).height : ℚ)
      ⟨⟨10, 10⟩, ⟨10, 10⟩⟩ :=
  selection_clamp_invariant (Img.new 100 80) [sample_event]
    ⟨⟨⟨10, 10⟩, ⟨10, 10⟩⟩⟩ (by decide)

end Fireshot
